import Mathlib

/-!
Verification of the BounceBack filter evaluation engine
(`internal/proxy/base/proxy.go`) and the HTTP entity adapter
(`internal/wrapper`, HTTPRequest) against its design document.

The Go code is shallowly embedded: one evaluation of `RunFilters` for a
fixed entity is a pure function of
  * the per-evaluation behaviour of the verdict store (`DBBehavior`:
    the result of `GetVerdict` and whether `IncAccepts` / `IncRejects`
    return an error),
  * the per-evaluation behaviour of each configured filter
    (`FilterBeh`: whether `Prepare` errors, and whether `Apply` returns
    an error, "filtered", or "passed"),
  * the proxy configuration (`ProxyConfig`).
The function returns, alongside the boolean verdict, a trace of
observable events (store lookups, spawned prepare workers, filter
applications, counter increments, error logs) so that claims about
"which filters were invoked" and "how often a counter was incremented"
become statements about the trace.  Go panics (`MustParseAddrPort` on a
malformed remote address, method call on a nil filter interface) are
embedded as `Except.error`.
-/

namespace BounceBack

/-- `database.Verdict`: per-identity accept/reject counters. -/
structure Verdict where
  accepts : Nat
  rejects : Nat
deriving DecidableEq, Repr

/-- `common.FilterSettings`: the two thresholds and the configured action
(proxy.go lines 152-156 read the thresholds; `verifyAction` reads the action). -/
structure FilterSettings where
  noRejectThreshold : Nat
  rejectThreshold : Nat
  action : String
deriving DecidableEq, Repr

/-- Optional TLS material paths (`cfg.TLS.Cert`, `cfg.TLS.Key`). -/
structure TLSPathPair where
  cert : String
  key : String
deriving DecidableEq, Repr

/-- The slice of `common.ProxyConfig` the embedded code reads. -/
structure ProxyConfig where
  name : String
  type : String
  listenAddr : String
  targetAddr : String
  filters : List String
  filterSettings : FilterSettings
  timeout : Nat
  tls : Option TLSPathPair
deriving DecidableEq, Repr

/-- `netip.Addr` is kept abstract: only its `String()` form is used
(proxy.go line 105). -/
structure Addr where
  s : String
deriving DecidableEq, Repr

def Addr.toString (a : Addr) : String := a.s

/-- `netip.AddrPort`: an address plus a port. -/
structure AddrPort where
  addr : Addr
  port : Nat
deriving DecidableEq, Repr

/-- Outcome of one filter's `Apply(e, logger)` call for the fixed entity of
this evaluation: an error, `(true, nil)` ("filtered") or `(false, nil)`. -/
inductive ApplyOutcome where
  | err
  | filtered
  | passed
deriving DecidableEq, Repr

/-- Behaviour of one `filters.Filter` for the fixed entity of this
evaluation: whether `Prepare` errors (only logged, proxy.go 179-181) and
what `Apply` returns. -/
structure FilterBeh where
  prepareErr : Bool
  apply : ApplyOutcome

/-- `filters.FilterSet`: name-to-filter lookup.  `Get` returns the filter
and a found flag; `none` models found = false (a nil filter). -/
structure FilterSet where
  get : String → Option FilterBeh

/-- Per-evaluation behaviour of `database.DB`: the `GetVerdict` result for
an identity and whether each increment call returns an error. -/
structure DBBehavior where
  getVerdict : String → Except Unit Verdict
  incAcceptsErr : String → Bool
  incRejectsErr : String → Bool

/-- Observable events of one evaluation. -/
inductive Event where
  /-- `p.db.GetVerdict(ip)` was called (proxy.go 147). -/
  | getVerdict (ip : String)
  /-- `prepareFilters` spawned the worker goroutine for filter index `i`;
  that worker is the unique caller of filter `i`'s `Prepare` (proxy.go 172-182). -/
  | spawnPrepare (i : Nat) (f : String)
  /-- `filter.Apply(e, filterLogger)` was called for chain index `i` (proxy.go 121). -/
  | apply (i : Nat) (f : String)
  /-- `p.db.IncRejects(ip)` was called (proxy.go 128). -/
  | incRejects (ip : String)
  /-- `p.db.IncAccepts(ip)` was called (proxy.go 136). -/
  | incAccepts (ip : String)
  /-- An error was logged. -/
  | log (msg : String)
deriving DecidableEq, Repr

def Event.isApply : Event → Bool
  | .apply _ _ => true
  | _ => false

/-- True on `apply j _` events with `j` strictly greater than `k`. -/
def Event.isApplyAfter (k : Nat) : Event → Bool
  | .apply j _ => decide (k < j)
  | _ => false

def Event.isIncAccepts : Event → Bool
  | .incAccepts _ => true
  | _ => false

def Event.isIncRejects : Event → Bool
  | .incRejects _ => true
  | _ => false

def Event.isSpawnPrepare : Event → Bool
  | .spawnPrepare _ _ => true
  | _ => false

/-- `Proxy` (proxy.go 82-92), restricted to the fields the embedded code
reads.  `db` carries this evaluation's store behaviour. -/
structure Proxy where
  config : ProxyConfig
  tlsConfig : Option Unit
  closing : Bool
  db : DBBehavior
  filters : FilterSet

/-- Modelled from the spec: `verifyAction` is not under src (only its call
site is); section 7 says an unsupported configured action is fatal at
construction time, so it checks membership of the action in the allowed
list. -/
def verifyAction (action : String) (actions : List String) : Except String Unit :=
  if action ∈ actions then Except.ok () else Except.error "unsupported action"

/-- `defaultTimeout = time.Second * 10`, in nanoseconds (proxy.go 18-20). -/
def defaultTimeout : Nat := 10000000000

/-- The timeout defaulting of proxy.go 48-54: a zero configured timeout
is replaced by `defaultTimeout`; nothing else changes. -/
def applyDefaultTimeout (cfg : ProxyConfig) : ProxyConfig :=
  if cfg.timeout = 0 then { cfg with timeout := defaultTimeout } else cfg

/-- `NewBaseProxy` (proxy.go 22-80).  `loadPair` stands for the external
`tls.LoadX509KeyPair`; a certificate is abstracted to `Unit`. -/
def NewBaseProxy (loadPair : String → String → Except String Unit)
    (cfg : ProxyConfig) (fs : FilterSet) (db : DBBehavior)
    (actions : List String) : Except String Proxy :=
  match verifyAction cfg.filterSettings.action actions with
  | Except.error e => Except.error e
  | Except.ok () =>
    match cfg.filters.find? (fun f => (fs.get f).isNone) with
    | some f =>
        Except.error ("cannot find filter " ++ f ++ " for proxy " ++ cfg.name)
    | none =>
      match (applyDefaultTimeout cfg).tls with
      | none =>
        Except.ok { config := applyDefaultTimeout cfg,
                    tlsConfig := none,
                    closing := false, db := db, filters := fs }
      | some pair =>
        match loadPair pair.cert pair.key with
        | Except.error e => Except.error ("cannot load tls config: " ++ e)
        | Except.ok cert =>
          Except.ok { config := applyDefaultTimeout cfg,
                      tlsConfig := some cert,
                      closing := false, db := db, filters := fs }

/-- One body stream wrapped as a BounceBack BodyReader: the full content
plus a read position. Reading yields everything from `pos` on;
`Close` rewinds to the start (the wrapper's `resetBody` relies on this,
part_000 lines 66-70). -/
structure BodyStream where
  data : List Nat
  pos : Nat
deriving DecidableEq, Repr

/-- `io.ReadAll` on a BodyReader: returns the unread suffix and leaves the
stream at end of file. -/
def BodyStream.readAll (s : BodyStream) : List Nat × BodyStream :=
  (s.data.drop s.pos, { s with pos := s.data.length })

/-- `Body.Close()` on a BodyReader: resets the stream to unread
(part_000 line 67, used by `resetBody`). -/
def BodyStream.close (s : BodyStream) : BodyStream :=
  { s with pos := 0 }

/-- Modelled from the spec: `WrapHTTPBody` is not under src (only its call
site is); section 4.4 says the body stream is replaced with "a fresh,
unread equivalent", so it returns an unread stream with the same content. -/
def WrapHTTPBody (s : BodyStream) : BodyStream :=
  { data := s.data, pos := 0 }

/-- `wrapper.HTTPRequest` (part_000), restricted to the fields the
embedded methods read: the remote endpoint string, the wire serialization
of the request line and headers, and the body stream. -/
structure HTTPRequest where
  remoteAddr : String
  headerBytes : List Nat
  body : BodyStream
deriving DecidableEq, Repr

/-- `HTTPRequest.GetIP` (part_000 lines 20-23).  `parseAddrPort` stands for
the external `netip.ParseAddrPort`; `MustParseAddrPort` panics on a
malformed endpoint, embedded as `Except.error`. -/
def HTTPRequest.GetIP (r : HTTPRequest)
    (parseAddrPort : String → Option AddrPort) : Except String Addr :=
  match parseAddrPort r.remoteAddr with
  | none => Except.error "MustParseAddrPort: invalid AddrPort"
  | some ap => Except.ok ap.addr

/-- `httputil.DumpRequest(req, true)` (external): the wire form of the
request line and headers followed by the unread part of the body. -/
def DumpRequest (r : HTTPRequest) : List Nat :=
  r.headerBytes ++ r.body.data.drop r.body.pos

/-- `HTTPRequest.GetRaw` (part_000 lines 25-39): wrap the body into a fresh
reader, dump the request, then install the fresh reader as the new body.
State passing replaces the in-place mutation of `r.Request.Body`. -/
def HTTPRequest.GetRaw (r : HTTPRequest) : List Nat × HTTPRequest :=
  let body := WrapHTTPBody r.body
  let data := DumpRequest r
  (data, { r with body := body })

/-- `HTTPRequest.GetBody` (part_000 lines 41-48): read the body to the end,
then `resetBody` closes (resets) the stream. -/
def HTTPRequest.GetBody (r : HTTPRequest) : List Nat × HTTPRequest :=
  let (buf, s) := r.body.readAll
  (buf, { r with body := s.close })

/-- `Proxy.isRejectedByThreshold` (proxy.go 146-163).  A failing
`GetVerdict` is replaced by a zero-valued record (lines 148-151); the
switch checks the no-reject rule first (its branch body is empty, so a
satisfied allow-list rule merely skips the reject rule), then the reject
rule. -/
def isRejectedByThreshold (p : Proxy) (ip : String) : Bool :=
  let v := match p.db.getVerdict ip with
    | Except.ok v => v
    | Except.error _ => { accepts := 0, rejects := 0 }
  let s := p.config.filterSettings
  if 0 < s.noRejectThreshold ∧ s.noRejectThreshold ≤ v.accepts then false
  else if 0 < s.rejectThreshold ∧ s.rejectThreshold ≤ v.rejects then true
  else false

/-- Trace of `Proxy.prepareFilters` (proxy.go 166-185): one worker
goroutine is spawned per configured filter, in chain order.  The lock
hand-off between each worker and the apply loop is modelled separately
(`SlotStep` below); here only the spawns are recorded. -/
def prepareFilters (names : List String) : List Event :=
  names.enum.map (fun p => Event.spawnPrepare p.1 p.2)

/-- The sequential apply loop of `Proxy.RunFilters` (proxy.go 115-141),
starting at chain index `i`.  `Get`'s found flag is discarded (line 120),
so an unresolvable name means calling `Apply` on a nil interface: a panic,
embedded as `Except.error`.  An `Apply` error is logged and the loop
continues (122-125); "filtered" increments the reject counter (a failure
is only logged) and returns false (126-133); when the loop completes, the
accept counter is incremented (a failure is only logged) and the result is
true (136-141). -/
def applyLoop (fs : FilterSet) (db : DBBehavior) (ip : String) :
    Nat → List String → Except String (Bool × List Event)
  | _, [] =>
    Except.ok (true, Event.incAccepts ip ::
      (if db.incAcceptsErr ip then [Event.log "cannot increase accepts"] else []))
  | i, f :: rest =>
    match fs.get f with
    | none => Except.error "nil filter dereference"
    | some filter =>
      match filter.apply with
      | ApplyOutcome.err =>
        match applyLoop fs db ip (i + 1) rest with
        | Except.error msg => Except.error msg
        | Except.ok (r, evs) =>
            Except.ok (r, Event.apply i f :: Event.log "filter error, skipping" :: evs)
      | ApplyOutcome.passed =>
        match applyLoop fs db ip (i + 1) rest with
        | Except.error msg => Except.error msg
        | Except.ok (r, evs) => Except.ok (r, Event.apply i f :: evs)
      | ApplyOutcome.filtered =>
        Except.ok (false, Event.apply i f :: Event.incRejects ip ::
          (if db.incRejectsErr ip then [Event.log "cannot increase rejects"] else []))

/-- `Proxy.RunFilters` (proxy.go 104-142): compute the identity (a panic in
`GetIP` escapes), run the threshold pre-check, spawn the prepare workers,
then run the sequential apply loop. -/
def RunFilters (parseAddrPort : String → Option AddrPort) (p : Proxy)
    (e : HTTPRequest) : Except String (Bool × List Event) :=
  match e.GetIP parseAddrPort with
  | Except.error msg => Except.error msg
  | Except.ok a =>
    let ip := a.toString
    if isRejectedByThreshold p ip then
      Except.ok (false, [Event.getVerdict ip])
    else
      match applyLoop p.filters p.db ip 0 p.config.filters with
      | Except.error msg => Except.error msg
      | Except.ok (r, evs) =>
          Except.ok (r, Event.getVerdict ip :: (prepareFilters p.config.filters ++ evs))

/-- The `Apply` outcome configured for the filter named `f`, if it resolves. -/
def outcomeOf (fs : FilterSet) (f : String) : Option ApplyOutcome :=
  (fs.get f).map FilterBeh.apply

/-- The `Apply` outcome of the filter at chain position `j`, if the
position exists and the name resolves. -/
def outcomeAt (fs : FilterSet) (names : List String) (j : Nat) : Option ApplyOutcome :=
  (names[j]?).bind (outcomeOf fs)

/-! ### The per-index lock between one prepare worker and the apply loop

`prepareFilters` (proxy.go 166-185) spawns, for every chain index, a
goroutine that locks `mg[index]`, runs `Prepare`, and unlocks; the apply
loop (proxy.go 115-117) locks the same `mg[i]` before calling `Apply` and
keeps it (via `defer`) until `RunFilters` returns.  For a fixed index the
interaction is a two-thread transition system over one mutex.  `Prepare`
and `Apply` are not atomic, so each is split into a begin and an end
step. -/

/-- Program counter of the prepare worker for one chain index
(proxy.go 172-182): lock, run `Prepare`, unlock. -/
inductive WorkerPC where
  | beforeLock
  | locked
  | preparing
  | prepared
  | done
deriving DecidableEq, Repr

/-- Program counter of the apply loop at the same chain index
(proxy.go 116-121): lock (with a deferred unlock), run `Apply`, and
release the lock only when the whole evaluation returns. -/
inductive MainPC where
  | beforeLock
  | locked
  | applying
  | applied
  | returned
deriving DecidableEq, Repr

/-- Which thread currently holds the per-index mutex. -/
inductive Owner where
  | worker
  | main
deriving DecidableEq, Repr

/-- Joint state of the prepare worker and the apply loop at one chain
index, together with the per-index mutex `mg[i]`. -/
structure SlotState where
  w : WorkerPC
  m : MainPC
  lock : Option Owner
deriving DecidableEq, Repr

/-- Interleaving steps at one chain index.  `go func` gives no ordering
between the spawned worker and the spawning evaluation, so from the
initial state either thread may move first; the mutex is acquired only
when free and released only by its holder. -/
inductive SlotStep : SlotState → SlotState → Prop
  | wAcquire (m : MainPC) :
      SlotStep ⟨WorkerPC.beforeLock, m, none⟩ ⟨WorkerPC.locked, m, some Owner.worker⟩
  | wBegin (m : MainPC) (l : Option Owner) :
      SlotStep ⟨WorkerPC.locked, m, l⟩ ⟨WorkerPC.preparing, m, l⟩
  | wEnd (m : MainPC) (l : Option Owner) :
      SlotStep ⟨WorkerPC.preparing, m, l⟩ ⟨WorkerPC.prepared, m, l⟩
  | wRelease (m : MainPC) :
      SlotStep ⟨WorkerPC.prepared, m, some Owner.worker⟩ ⟨WorkerPC.done, m, none⟩
  | mAcquire (w : WorkerPC) :
      SlotStep ⟨w, MainPC.beforeLock, none⟩ ⟨w, MainPC.locked, some Owner.main⟩
  | mBegin (w : WorkerPC) (l : Option Owner) :
      SlotStep ⟨w, MainPC.locked, l⟩ ⟨w, MainPC.applying, l⟩
  | mEnd (w : WorkerPC) (l : Option Owner) :
      SlotStep ⟨w, MainPC.applying, l⟩ ⟨w, MainPC.applied, l⟩
  | mRelease (w : WorkerPC) :
      SlotStep ⟨w, MainPC.applied, some Owner.main⟩ ⟨w, MainPC.returned, none⟩

/-- Initial state: worker spawned, apply loop at the lock, mutex free. -/
def slotInit : SlotState :=
  ⟨WorkerPC.beforeLock, MainPC.beforeLock, none⟩

/-- States reachable from `slotInit` by interleaving the two threads. -/
def SlotReachable (s : SlotState) : Prop :=
  Relation.ReflTransGen SlotStep slotInit s

/-- The same store behaviour with increments that always succeed. -/
def DBBehavior.incOk (db : DBBehavior) : DBBehavior :=
  { getVerdict := db.getVerdict,
    incAcceptsErr := fun _ => false,
    incRejectsErr := fun _ => false }

/-- The same store behaviour with a lookup answering the zero-valued
record every time. -/
def DBBehavior.zeroGet (db : DBBehavior) : DBBehavior :=
  { getVerdict := fun _ => Except.ok { accepts := 0, rejects := 0 },
    incAcceptsErr := db.incAcceptsErr,
    incRejectsErr := db.incRejectsErr }

/-- The same proxy with another store behaviour. -/
def Proxy.withDB (p : Proxy) (db : DBBehavior) : Proxy :=
  { config := p.config, tlsConfig := p.tlsConfig, closing := p.closing,
    db := db, filters := p.filters }

/-! ### Concrete instances used by counterexamples and witnesses -/

def exAddr : Addr := { s := "1.2.3.4" }

def exParse : String → Option AddrPort := fun _ => some { addr := exAddr, port := 443 }

def exReq : HTTPRequest :=
  { remoteAddr := "1.2.3.4:443", headerBytes := [72, 84],
    body := { data := [97, 98, 99], pos := 0 } }

/-- A store that answers every lookup with `v` and never fails an increment. -/
def exDB (v : Verdict) : DBBehavior :=
  { getVerdict := fun _ => Except.ok v
    incAcceptsErr := fun _ => false
    incRejectsErr := fun _ => false }

/-- A store whose lookup and increments all fail. -/
def exDBFail : DBBehavior :=
  { getVerdict := fun _ => Except.error ()
    incAcceptsErr := fun _ => true
    incRejectsErr := fun _ => true }

/-- A registry with one rejecting, one passing, and one erroring filter. -/
def exFS : FilterSet :=
  { get := fun n =>
      if n = "geo" then some { prepareErr := false, apply := ApplyOutcome.filtered }
      else if n = "ua" then some { prepareErr := false, apply := ApplyOutcome.passed }
      else if n = "ptr" then some { prepareErr := true, apply := ApplyOutcome.err }
      else none }

def exConfig (fl : List String) (nrt rt : Nat) : ProxyConfig :=
  { name := "px", type := "http", listenAddr := "L", targetAddr := "T",
    filters := fl,
    filterSettings := { noRejectThreshold := nrt, rejectThreshold := rt, action := "drop" },
    timeout := 7, tls := none }

def mkProxy (fl : List String) (nrt rt : Nat) (db : DBBehavior) : Proxy :=
  { config := exConfig fl nrt rt, tlsConfig := none, closing := false,
    db := db, filters := exFS }

/-- The state reached when the apply loop runs to completion before
the prepare worker was ever scheduled: Apply has finished, Prepare has
not begun, the evaluation still holds the lock. -/
def slotCex : SlotState := ⟨WorkerPC.beforeLock, MainPC.applied, some Owner.main⟩

/-! ### Helper lemmas -/

/-- Every event of the priming trace is a spawn event, so any predicate
that is false on spawn events counts zero there. -/
lemma prepareFilters_countP (ns : List String) (q : Event → Bool)
    (h : ∀ i f, q (Event.spawnPrepare i f) = false) :
    (prepareFilters ns).countP q = 0 := by
  refine List.countP_eq_zero.mpr ?_
  intro ev hev
  simp only [prepareFilters, List.mem_map] at hev
  obtain ⟨⟨i, f⟩, _, rfl⟩ := hev
  simp [h]

/-- Reference summary of the boolean the apply loop computes: the first
name that fails to resolve panics, the first "filtered" outcome rejects,
anything else (pass or error) moves on, and an exhausted chain accepts. -/
def chainResult (fs : FilterSet) : List String → Except String Bool
  | [] => Except.ok true
  | f :: rest =>
    match fs.get f with
    | none => Except.error "nil filter dereference"
    | some b =>
      match b.apply with
      | ApplyOutcome.filtered => Except.ok false
      | ApplyOutcome.err => chainResult fs rest
      | ApplyOutcome.passed => chainResult fs rest

/-- The boolean component of the apply loop is `chainResult`; in
particular it does not depend on the store behaviour, the identity, or
the start index. -/
lemma applyLoop_fst (fs : FilterSet) (db : DBBehavior) (ip : String) :
    ∀ (ns : List String) (i : Nat),
      (applyLoop fs db ip i ns).map Prod.fst = chainResult fs ns := by
  intro ns
  induction ns with
  | nil => intro i; simp [applyLoop, chainResult, Except.map]
  | cons f rest ih =>
    intro i
    simp only [applyLoop, chainResult]
    cases fs.get f with
    | none => rfl
    | some b =>
      cases hba : b.apply with
      | filtered => simp [hba, Except.map]
      | err =>
        rw [← ih (i + 1)]
        cases h1 : applyLoop fs db ip (i + 1) rest with
        | error msg => simp [hba, h1, Except.map]
        | ok r =>
          obtain ⟨r, evs⟩ := r
          simp [hba, h1, Except.map]
      | passed =>
        rw [← ih (i + 1)]
        cases h1 : applyLoop fs db ip (i + 1) rest with
        | error msg => simp [hba, h1, Except.map]
        | ok r =>
          obtain ⟨r, evs⟩ := r
          simp [hba, h1, Except.map]

/-- If every name in the chain resolves in the registry, the apply loop
cannot hit the nil-filter panic. -/
lemma applyLoop_isOk (fs : FilterSet) (db : DBBehavior) (ip : String) :
    ∀ (ns : List String) (i : Nat), (∀ f ∈ ns, (fs.get f).isSome) →
      ∃ r evs, applyLoop fs db ip i ns = Except.ok (r, evs) := by
  intro ns
  induction ns with
  | nil => intro i _; exact ⟨true, _, rfl⟩
  | cons f rest ih =>
    intro i hres
    have hf : (fs.get f).isSome := hres f (by simp)
    obtain ⟨b, hb⟩ := Option.isSome_iff_exists.mp hf
    obtain ⟨r, evs, hrec⟩ := ih (i + 1) (fun g hg => hres g (by simp [hg]))
    cases hba : b.apply with
    | err =>
      exact ⟨r, Event.apply i f :: Event.log "filter error, skipping" :: evs,
        by simp [applyLoop, hb, hba, hrec]⟩
    | passed =>
      exact ⟨r, Event.apply i f :: evs, by simp [applyLoop, hb, hba, hrec]⟩
    | filtered =>
      exact ⟨false, Event.apply i f :: Event.incRejects ip ::
        (if db.incRejectsErr ip then [Event.log "cannot increase rejects"] else []),
        by simp [applyLoop, hb, hba]⟩

/-- If every name in the chain resolves and none is configured to signal
"filtered", the loop accepts with exactly one accept increment and no
reject increment. -/
lemma applyLoop_accepts (fs : FilterSet) (db : DBBehavior) (ip : String) :
    ∀ (ns : List String) (i : Nat),
      (∀ f ∈ ns, outcomeOf fs f ≠ none ∧ outcomeOf fs f ≠ some ApplyOutcome.filtered) →
      ∃ evs, applyLoop fs db ip i ns = Except.ok (true, evs) ∧
        evs.countP Event.isIncAccepts = 1 ∧
        evs.countP Event.isIncRejects = 0 := by
  intro ns
  induction ns with
  | nil =>
    intro i _
    refine ⟨_, rfl, ?_, ?_⟩ <;>
      cases h : db.incAcceptsErr ip <;>
        simp [h, List.countP_cons, Event.isIncAccepts, Event.isIncRejects]
  | cons f rest ih =>
    intro i hall
    obtain ⟨hsome, hnf⟩ := hall f (by simp)
    cases hg : fs.get f with
    | none => exact absurd (by simp [outcomeOf, hg]) hsome
    | some b =>
      obtain ⟨evs, hrec, hca, hcr⟩ := ih (i + 1) (fun g hgm => hall g (by simp [hgm]))
      have hnf' : b.apply ≠ ApplyOutcome.filtered := fun hcon =>
        hnf (by simp [outcomeOf, hg, hcon])
      cases hba : b.apply with
      | filtered => exact absurd hba hnf'
      | err =>
        refine ⟨Event.apply i f :: Event.log "filter error, skipping" :: evs,
          by simp [applyLoop, hg, hba, hrec], ?_, ?_⟩ <;>
          simp [List.countP_cons, Event.isIncAccepts, Event.isIncRejects, hca, hcr]
      | passed =>
        refine ⟨Event.apply i f :: evs,
          by simp [applyLoop, hg, hba, hrec], ?_, ?_⟩ <;>
          simp [List.countP_cons, Event.isIncAccepts, Event.isIncRejects, hca, hcr]

/-- If the filter at chain position `k` is configured to signal "filtered"
and every earlier position resolves to a non-"filtered" outcome, the loop
rejects with exactly one reject increment, no accept increment, and no
`Apply` beyond absolute position `i + k`. -/
lemma applyLoop_rejects (fs : FilterSet) (db : DBBehavior) (ip : String) :
    ∀ (ns : List String) (k i : Nat),
      outcomeAt fs ns k = some ApplyOutcome.filtered →
      (∀ j, j < k → outcomeAt fs ns j ≠ none ∧
        outcomeAt fs ns j ≠ some ApplyOutcome.filtered) →
      ∃ evs, applyLoop fs db ip i ns = Except.ok (false, evs) ∧
        evs.countP Event.isIncRejects = 1 ∧
        evs.countP Event.isIncAccepts = 0 ∧
        evs.countP (Event.isApplyAfter (i + k)) = 0 := by
  intro ns
  induction ns with
  | nil => intro k i hk _; simp [outcomeAt] at hk
  | cons f rest ih =>
    intro k i hk hj
    cases k with
    | zero =>
      simp only [outcomeAt, List.getElem?_cons_zero, Option.some_bind] at hk
      cases hg : fs.get f with
      | none => simp [outcomeOf, hg] at hk
      | some b =>
        have hba : b.apply = ApplyOutcome.filtered := by
          simpa [outcomeOf, hg] using hk
        refine ⟨Event.apply i f :: Event.incRejects ip ::
          (if db.incRejectsErr ip then [Event.log "cannot increase rejects"] else []),
          by simp [applyLoop, hg, hba], ?_, ?_, ?_⟩ <;>
          cases h : db.incRejectsErr ip <;>
            simp [h, List.countP_cons, Event.isIncRejects, Event.isIncAccepts,
              Event.isApplyAfter]
    | succ k' =>
      obtain ⟨hsome0, hnf0⟩ := hj 0 (Nat.succ_pos k')
      simp only [outcomeAt, List.getElem?_cons_zero, Option.some_bind] at hsome0 hnf0
      cases hg : fs.get f with
      | none => exact absurd (by simp [outcomeOf, hg]) hsome0
      | some b =>
        have hk' : outcomeAt fs rest k' = some ApplyOutcome.filtered := by
          simpa [outcomeAt, List.getElem?_cons_succ] using hk
        have hj' : ∀ j, j < k' → outcomeAt fs rest j ≠ none ∧
            outcomeAt fs rest j ≠ some ApplyOutcome.filtered := by
          intro j hjk
          have := hj (j + 1) (Nat.succ_lt_succ hjk)
          simpa [outcomeAt, List.getElem?_cons_succ] using this
        obtain ⟨evs, hrec, hcr, hca, hcapp⟩ := ih k' (i + 1) hk' hj'
        have hidx : i + (k' + 1) = (i + 1) + k' := by omega
        have hnf' : b.apply ≠ ApplyOutcome.filtered := fun hcon =>
          hnf0 (by simp [outcomeOf, hg, hcon])
        cases hba : b.apply with
        | filtered => exact absurd hba hnf'
        | err =>
          refine ⟨Event.apply i f :: Event.log "filter error, skipping" :: evs,
            by simp [applyLoop, hg, hba, hrec], ?_, ?_, ?_⟩ <;>
            (simp [List.countP_cons, Event.isIncRejects, Event.isIncAccepts,
              Event.isApplyAfter, hcr, hca, hidx, hcapp]; try omega)
        | passed =>
          refine ⟨Event.apply i f :: evs,
            by simp [applyLoop, hg, hba, hrec], ?_, ?_, ?_⟩ <;>
            (simp [List.countP_cons, Event.isIncRejects, Event.isIncAccepts,
              Event.isApplyAfter, hcr, hca, hidx, hcapp]; try omega)

/-- Substituting, at one chain position, a filter whose `Apply` errors by
one whose `Apply` passes does not change the boolean the chain computes. -/
lemma chainResult_err_eq_passed (fs : FilterSet) (f g : String)
    (bf bg : FilterBeh)
    (hf : fs.get f = some bf) (hbf : bf.apply = ApplyOutcome.err)
    (hg : fs.get g = some bg) (hbg : bg.apply = ApplyOutcome.passed) :
    ∀ (l1 l2 : List String),
      chainResult fs (l1 ++ f :: l2) = chainResult fs (l1 ++ g :: l2) := by
  intro l1
  induction l1 with
  | nil => intro l2; simp [chainResult, hf, hbf, hg, hbg]
  | cons x rest ih =>
    intro l2
    simp only [List.cons_append, chainResult]
    cases fs.get x with
    | none => rfl
    | some b =>
      cases hba : b.apply with
      | filtered => simp [hba]
      | err => simp [hba, ih l2]
      | passed => simp [hba, ih l2]

/-- Mutex-ownership invariant of the per-index lock: a worker past its
`Lock` and before its `Unlock` holds the mutex, and so does the apply
loop between its `Lock` and the end of the evaluation. -/
def SlotInv (s : SlotState) : Prop :=
  (s.w = WorkerPC.locked ∨ s.w = WorkerPC.preparing ∨ s.w = WorkerPC.prepared →
    s.lock = some Owner.worker) ∧
  (s.m = MainPC.locked ∨ s.m = MainPC.applying ∨ s.m = MainPC.applied →
    s.lock = some Owner.main)

lemma slotInv_of_reachable (s : SlotState) (h : SlotReachable s) : SlotInv s := by
  induction h with
  | refl => exact ⟨by simp [slotInit], by simp [slotInit]⟩
  | tail _ hstep ih =>
    cases hstep with
    | wAcquire m =>
      refine ⟨fun _ => rfl, fun hm => ?_⟩
      exact absurd (ih.2 hm) (by simp)
    | wBegin m l => exact ⟨fun _ => ih.1 (Or.inl rfl), fun hm => ih.2 hm⟩
    | wEnd m l => exact ⟨fun _ => ih.1 (Or.inr (Or.inl rfl)), fun hm => ih.2 hm⟩
    | wRelease m =>
      refine ⟨fun hw => ?_, fun hm => ?_⟩
      · rcases hw with h | h | h <;> simp at h
      · exact absurd (ih.2 hm) (by simp)
    | mAcquire w =>
      refine ⟨fun hw => ?_, fun _ => rfl⟩
      exact absurd (ih.1 hw) (by simp)
    | mBegin w l => exact ⟨fun hw => ih.1 hw, fun _ => ih.2 (Or.inl rfl)⟩
    | mEnd w l => exact ⟨fun hw => ih.1 hw, fun _ => ih.2 (Or.inr (Or.inl rfl))⟩
    | mRelease w =>
      refine ⟨fun hw => ?_, fun hm => ?_⟩
      · exact absurd (ih.1 hw) (by simp)
      · rcases hm with h | h | h <;> simp at h

/-! ### Claims -/

/-- Claim C1, counterexample.  Chain = ["geo"] where "geo" signals
filtered, no_reject_threshold = 1, cached verdict accepts = 5 >= 1: the
claim says RunFilters returns accepted and invokes no filter, but the
allow-list rule only skips the reject-threshold rule (the matching switch
case at proxy.go 153-154 has an empty body), so the chain still runs:
"geo" is applied once and the evaluation is rejected. -/
theorem C1_counterexample :
    0 < (mkProxy ["geo"] 1 0 (exDB ⟨5, 0⟩)).config.filterSettings.noRejectThreshold ∧
    (mkProxy ["geo"] 1 0 (exDB ⟨5, 0⟩)).db.getVerdict (Addr.toString exAddr)
      = Except.ok ⟨5, 0⟩ ∧
    (mkProxy ["geo"] 1 0 (exDB ⟨5, 0⟩)).config.filterSettings.noRejectThreshold ≤ 5 ∧
    (RunFilters exParse (mkProxy ["geo"] 1 0 (exDB ⟨5, 0⟩)) exReq).map Prod.fst
      = Except.ok false ∧
    (RunFilters exParse (mkProxy ["geo"] 1 0 (exDB ⟨5, 0⟩)) exReq).map
      (fun r => r.2.countP Event.isApply) = Except.ok 1 := by
  exact ⟨by decide, rfl, by decide, rfl, rfl⟩

/-- Claim C1 (amended): for every identity whose verdict record has
accepts >= no_reject_threshold with no_reject_threshold > 0, the
pre-filter threshold check never rejects (the reject-count rule is
bypassed regardless of the reject count), and RunFilters proceeds with
the normal evaluation: it spawns the prepare workers and returns
exactly the verdict of the filter chain. -/
theorem C1_allowlist_skips_reject_rule_only
    (parse : String → Option AddrPort) (p : Proxy) (e : HTTPRequest)
    (a : Addr) (v : Verdict)
    (hip : e.GetIP parse = Except.ok a)
    (hv : p.db.getVerdict a.toString = Except.ok v)
    (h1 : 0 < p.config.filterSettings.noRejectThreshold)
    (h2 : p.config.filterSettings.noRejectThreshold ≤ v.accepts) :
    isRejectedByThreshold p a.toString = false ∧
    ∀ b evs,
      applyLoop p.filters p.db a.toString 0 p.config.filters = Except.ok (b, evs) →
      RunFilters parse p e =
        Except.ok (b, Event.getVerdict a.toString ::
          (prepareFilters p.config.filters ++ evs)) := by
  have hrej : isRejectedByThreshold p a.toString = false := by
    simp [isRejectedByThreshold, hv, h1, h2]
  refine ⟨hrej, fun b evs hloop => ?_⟩
  simp [RunFilters, hip, hrej, hloop]

/-- Witness for the amended C1: an allow-listed identity with a huge
reject count still goes through the chain; with the passing filter "ua"
it is accepted. -/
theorem C1_witness :
    isRejectedByThreshold (mkProxy ["ua"] 1 0 (exDB ⟨5, 99⟩)) (Addr.toString exAddr)
      = false ∧
    RunFilters exParse (mkProxy ["ua"] 1 0 (exDB ⟨5, 99⟩)) exReq =
      Except.ok (true, Event.getVerdict (Addr.toString exAddr) ::
        (prepareFilters ["ua"] ++
          [Event.apply 0 "ua", Event.incAccepts (Addr.toString exAddr)])) := by
  have h := C1_allowlist_skips_reject_rule_only exParse
    (mkProxy ["ua"] 1 0 (exDB ⟨5, 99⟩)) exReq exAddr ⟨5, 99⟩ rfl rfl
    (by decide) (by decide)
  exact ⟨h.1, h.2 true [Event.apply 0 "ua", Event.incAccepts (Addr.toString exAddr)] rfl⟩

/-- Claim C2: with a successful verdict lookup, the pre-filter check
rejects exactly when the allow-list rule is not satisfied, the reject
threshold is positive, and rejects >= reject_threshold; and when it
rejects, RunFilters returns rejected with a trace holding only the
lookup: no filter applied, no worker spawned, no counter incremented. -/
theorem C2_reject_threshold_precheck
    (parse : String → Option AddrPort) (p : Proxy) (e : HTTPRequest)
    (a : Addr) (v : Verdict)
    (hip : e.GetIP parse = Except.ok a)
    (hv : p.db.getVerdict a.toString = Except.ok v) :
    (isRejectedByThreshold p a.toString = true ↔
      (¬(0 < p.config.filterSettings.noRejectThreshold ∧
          p.config.filterSettings.noRejectThreshold ≤ v.accepts) ∧
        0 < p.config.filterSettings.rejectThreshold ∧
        p.config.filterSettings.rejectThreshold ≤ v.rejects)) ∧
    (isRejectedByThreshold p a.toString = true →
      RunFilters parse p e = Except.ok (false, [Event.getVerdict a.toString]) ∧
      [Event.getVerdict a.toString].countP Event.isApply = 0 ∧
      [Event.getVerdict a.toString].countP Event.isSpawnPrepare = 0 ∧
      [Event.getVerdict a.toString].countP Event.isIncAccepts = 0 ∧
      [Event.getVerdict a.toString].countP Event.isIncRejects = 0) := by
  constructor
  · simp only [isRejectedByThreshold, hv]
    split_ifs with hA hB
    · simp [hA]
    · simp [hA, hB]
    · simp [hA, hB]
  · intro hrej
    refine ⟨by simp [RunFilters, hip, hrej], rfl, rfl, rfl, rfl⟩

/-- Witness for C2: reject threshold 3, allow-list disabled, 7 cached
rejects: the identity is rejected before any filter runs. -/
theorem C2_witness :
    (isRejectedByThreshold (mkProxy ["ua"] 0 3 (exDB ⟨0, 7⟩)) (Addr.toString exAddr)
        = true ↔
      (¬(0 < (mkProxy ["ua"] 0 3 (exDB ⟨0, 7⟩)).config.filterSettings.noRejectThreshold ∧
          (mkProxy ["ua"] 0 3 (exDB ⟨0, 7⟩)).config.filterSettings.noRejectThreshold ≤ 0) ∧
        0 < (mkProxy ["ua"] 0 3 (exDB ⟨0, 7⟩)).config.filterSettings.rejectThreshold ∧
        (mkProxy ["ua"] 0 3 (exDB ⟨0, 7⟩)).config.filterSettings.rejectThreshold ≤ 7)) ∧
    RunFilters exParse (mkProxy ["ua"] 0 3 (exDB ⟨0, 7⟩)) exReq =
      Except.ok (false, [Event.getVerdict (Addr.toString exAddr)]) := by
  have h := C2_reject_threshold_precheck exParse
    (mkProxy ["ua"] 0 3 (exDB ⟨0, 7⟩)) exReq exAddr ⟨0, 7⟩ rfl rfl
  exact ⟨h.1, (h.2 (by decide)).1⟩

/-- Claim C3: if, with no threshold short-circuit, the filter at chain
position k signals filtered and no earlier position errs on resolution or
signals filtered, then RunFilters returns rejected, attempts the reject
increment exactly once, attempts no accept increment, and never applies a
filter at a position greater than k. -/
theorem C3_filtered_at_k_short_circuits
    (parse : String → Option AddrPort) (p : Proxy) (e : HTTPRequest)
    (a : Addr) (k : Nat)
    (hip : e.GetIP parse = Except.ok a)
    (hthr : isRejectedByThreshold p a.toString = false)
    (hk : outcomeAt p.filters p.config.filters k = some ApplyOutcome.filtered)
    (hj : ∀ j, j < k → outcomeAt p.filters p.config.filters j ≠ none ∧
      outcomeAt p.filters p.config.filters j ≠ some ApplyOutcome.filtered) :
    ∃ evs, RunFilters parse p e = Except.ok (false, evs) ∧
      evs.countP Event.isIncRejects = 1 ∧
      evs.countP Event.isIncAccepts = 0 ∧
      evs.countP (Event.isApplyAfter k) = 0 := by
  obtain ⟨evs, hloop, hcr, hca, happ⟩ :=
    applyLoop_rejects p.filters p.db a.toString p.config.filters k 0 hk hj
  rw [Nat.zero_add] at happ
  have hp1 : (prepareFilters p.config.filters).countP Event.isIncRejects = 0 :=
    prepareFilters_countP _ _ (fun i f => rfl)
  have hp2 : (prepareFilters p.config.filters).countP Event.isIncAccepts = 0 :=
    prepareFilters_countP _ _ (fun i f => rfl)
  have hp3 : (prepareFilters p.config.filters).countP (Event.isApplyAfter k) = 0 :=
    prepareFilters_countP _ _ (fun i f => rfl)
  refine ⟨Event.getVerdict a.toString :: (prepareFilters p.config.filters ++ evs),
    by simp [RunFilters, hip, hthr, hloop], ?_, ?_, ?_⟩ <;>
    simp [List.countP_cons, List.countP_append, Event.isIncRejects, Event.isIncAccepts,
      Event.isApplyAfter, hp1, hp2, hp3, hcr, hca, happ]

/-- Witness for C3: chain ["ua", "geo", "ua"], "ua" passes, "geo" (at
position 1) rejects: the verdict is rejected, one reject increment, and
position 2 is never applied. -/
theorem C3_witness :
    ∃ evs, RunFilters exParse (mkProxy ["ua", "geo", "ua"] 0 0 (exDB ⟨0, 0⟩)) exReq
        = Except.ok (false, evs) ∧
      evs.countP Event.isIncRejects = 1 ∧
      evs.countP Event.isIncAccepts = 0 ∧
      evs.countP (Event.isApplyAfter 1) = 0 :=
  C3_filtered_at_k_short_circuits exParse (mkProxy ["ua", "geo", "ua"] 0 0 (exDB ⟨0, 0⟩))
    exReq exAddr 1 rfl (by decide) (by decide) (by decide)

/-- Claim C4: if the threshold pre-check does not short-circuit and every
configured filter resolves and is not configured to signal filtered
(the empty chain included), RunFilters returns accepted and attempts the
accept increment exactly once. -/
theorem C4_all_pass_accepts
    (parse : String → Option AddrPort) (p : Proxy) (e : HTTPRequest) (a : Addr)
    (hip : e.GetIP parse = Except.ok a)
    (hthr : isRejectedByThreshold p a.toString = false)
    (hall : ∀ f ∈ p.config.filters, outcomeOf p.filters f ≠ none ∧
      outcomeOf p.filters f ≠ some ApplyOutcome.filtered) :
    ∃ evs, RunFilters parse p e = Except.ok (true, evs) ∧
      evs.countP Event.isIncAccepts = 1 ∧
      evs.countP Event.isIncRejects = 0 := by
  obtain ⟨evs, hloop, hca, hcr⟩ :=
    applyLoop_accepts p.filters p.db a.toString p.config.filters 0 hall
  have hp1 : (prepareFilters p.config.filters).countP Event.isIncAccepts = 0 :=
    prepareFilters_countP _ _ (fun i f => rfl)
  have hp2 : (prepareFilters p.config.filters).countP Event.isIncRejects = 0 :=
    prepareFilters_countP _ _ (fun i f => rfl)
  refine ⟨Event.getVerdict a.toString :: (prepareFilters p.config.filters ++ evs),
    by simp [RunFilters, hip, hthr, hloop], ?_, ?_⟩ <;>
    simp [List.countP_cons, List.countP_append, Event.isIncRejects, Event.isIncAccepts,
      hp1, hp2, hca, hcr]

/-- Witness for C4: the empty chain is accepted with exactly one accept
increment. -/
theorem C4_witness :
    ∃ evs, RunFilters exParse (mkProxy [] 0 0 (exDB ⟨0, 0⟩)) exReq
        = Except.ok (true, evs) ∧
      evs.countP Event.isIncAccepts = 1 ∧
      evs.countP Event.isIncRejects = 0 :=
  C4_all_pass_accepts exParse (mkProxy [] 0 0 (exDB ⟨0, 0⟩)) exReq exAddr
    rfl (by decide) (by decide)

/-- Claim C5: a filter whose Apply errs contributes neither pass nor
fail.  First part: replacing an erring filter at any chain position by a
passing one never changes the boolean verdict of the loop.  Second part:
if the last filter errs and all earlier filters pass (no threshold
short-circuit), RunFilters returns accepted. -/
theorem C5_apply_error_is_noop :
    (∀ (fs : FilterSet) (db : DBBehavior) (ip : String) (f g : String)
        (bf bg : FilterBeh),
        fs.get f = some bf → bf.apply = ApplyOutcome.err →
        fs.get g = some bg → bg.apply = ApplyOutcome.passed →
        ∀ (l1 l2 : List String) (i : Nat),
          (applyLoop fs db ip i (l1 ++ f :: l2)).map Prod.fst
            = (applyLoop fs db ip i (l1 ++ g :: l2)).map Prod.fst) ∧
    (∀ (parse : String → Option AddrPort) (p : Proxy) (e : HTTPRequest)
        (a : Addr) (l : List String) (f : String),
        e.GetIP parse = Except.ok a →
        isRejectedByThreshold p a.toString = false →
        p.config.filters = l ++ [f] →
        (∀ g ∈ l, outcomeOf p.filters g = some ApplyOutcome.passed) →
        outcomeOf p.filters f = some ApplyOutcome.err →
        ∃ evs, RunFilters parse p e = Except.ok (true, evs)) := by
  constructor
  · intro fs db ip f g bf bg hf hbf hg hbg l1 l2 i
    rw [applyLoop_fst, applyLoop_fst,
      chainResult_err_eq_passed fs f g bf bg hf hbf hg hbg]
  · intro parse p e a l f hip hthr hchain hl hf
    have hall : ∀ g ∈ p.config.filters, outcomeOf p.filters g ≠ none ∧
        outcomeOf p.filters g ≠ some ApplyOutcome.filtered := by
      intro g hgmem
      rw [hchain] at hgmem
      rcases List.mem_append.mp hgmem with hgl | hgf
      · have := hl g hgl
        simp [this]
      · have hgf' : g = f := by simpa using hgf
        subst hgf'
        simp [hf]
    obtain ⟨evs, hloop, _, _⟩ :=
      applyLoop_accepts p.filters p.db a.toString p.config.filters 0 hall
    exact ⟨Event.getVerdict a.toString :: (prepareFilters p.config.filters ++ evs),
      by simp [RunFilters, hip, hthr, hloop]⟩

/-- Witness for C5: the erring filter "ptr" behaves like the passing
filter "ua" inside a chain, and a chain whose last filter errs while the
first passes is accepted. -/
theorem C5_witness :
    ((applyLoop exFS (exDB ⟨0, 0⟩) (Addr.toString exAddr) 0
        (["ua"] ++ "ptr" :: ["geo"])).map Prod.fst
      = (applyLoop exFS (exDB ⟨0, 0⟩) (Addr.toString exAddr) 0
        (["ua"] ++ "ua" :: ["geo"])).map Prod.fst) ∧
    ∃ evs, RunFilters exParse (mkProxy ["ua", "ptr"] 0 0 (exDB ⟨0, 0⟩)) exReq
      = Except.ok (true, evs) :=
  ⟨C5_apply_error_is_noop.1 exFS (exDB ⟨0, 0⟩) (Addr.toString exAddr) "ptr" "ua"
      ⟨true, ApplyOutcome.err⟩ ⟨false, ApplyOutcome.passed⟩ rfl rfl rfl rfl
      ["ua"] ["geo"] 0,
    C5_apply_error_is_noop.2 exParse (mkProxy ["ua", "ptr"] 0 0 (exDB ⟨0, 0⟩)) exReq
      exAddr ["ua"] "ptr" rfl (by decide) rfl (by decide) (by decide)⟩

/-- Claim C6: store failures never change the boolean verdict.  First
part: a failing GetVerdict makes the threshold check behave exactly as a
lookup answering a zero-valued record.  Second part: whatever the
increment calls do, the boolean RunFilters returns (or the panic it
propagates) is the one it would produce with increments that succeed. -/
theorem C6_store_failures_do_not_change_verdict :
    (∀ (p : Proxy) (ip : String),
        p.db.getVerdict ip = Except.error () →
        isRejectedByThreshold p ip =
          isRejectedByThreshold (p.withDB p.db.zeroGet) ip) ∧
    (∀ (parse : String → Option AddrPort) (p : Proxy) (e : HTTPRequest),
        (RunFilters parse p e).map Prod.fst =
          (RunFilters parse (p.withDB p.db.incOk) e).map Prod.fst) := by
  constructor
  · intro p ip herr
    simp [isRejectedByThreshold, Proxy.withDB, DBBehavior.zeroGet, herr]
  · intro parse p e
    cases hip : e.GetIP parse with
    | error msg => simp [RunFilters, hip]
    | ok a =>
      have hcfg : (p.withDB p.db.incOk).config = p.config := rfl
      have hget : (p.withDB p.db.incOk).db.getVerdict = p.db.getVerdict := rfl
      cases hrej : isRejectedByThreshold p a.toString with
      | true =>
        have hrej2 : isRejectedByThreshold (p.withDB p.db.incOk) a.toString = true := by
          rw [← hrej]
          simp [isRejectedByThreshold, Proxy.withDB, DBBehavior.incOk]
        simp [RunFilters, hip, hrej, hrej2]
      | false =>
        have hrej2 : isRejectedByThreshold (p.withDB p.db.incOk) a.toString = false := by
          rw [← hrej]
          simp [isRejectedByThreshold, Proxy.withDB, DBBehavior.incOk]
        have hfst : (applyLoop p.filters p.db a.toString 0 p.config.filters).map Prod.fst
            = (applyLoop (p.withDB p.db.incOk).filters (p.withDB p.db.incOk).db
                a.toString 0 (p.withDB p.db.incOk).config.filters).map Prod.fst := by
          rw [applyLoop_fst, applyLoop_fst]
          rfl
        cases hl : applyLoop p.filters p.db a.toString 0 p.config.filters with
        | error msg =>
          cases hl2 : applyLoop (p.withDB p.db.incOk).filters (p.withDB p.db.incOk).db
              a.toString 0 (p.withDB p.db.incOk).config.filters with
          | error msg2 =>
            rw [hl, hl2] at hfst
            simp only [Except.map, Except.error.injEq] at hfst
            simp [RunFilters, Except.map, hip, hrej, hrej2, hl, hl2, hfst]
          | ok r2 =>
            rw [hl, hl2] at hfst
            simp [Except.map] at hfst
        | ok r =>
          obtain ⟨b1, evs1⟩ := r
          cases hl2 : applyLoop (p.withDB p.db.incOk).filters (p.withDB p.db.incOk).db
              a.toString 0 (p.withDB p.db.incOk).config.filters with
          | error msg2 =>
            rw [hl, hl2] at hfst
            simp [Except.map] at hfst
          | ok r2 =>
            obtain ⟨b2, evs2⟩ := r2
            rw [hl, hl2] at hfst
            simp only [Except.map, Except.ok.injEq] at hfst
            simp [RunFilters, Except.map, hip, hrej, hrej2, hl, hl2, hfst]

/-- Witness for C6: with a store whose lookup fails, the threshold check
equals the zero-record case on a concrete proxy. -/
theorem C6_witness :
    isRejectedByThreshold (mkProxy [] 0 0 exDBFail) "x" =
      isRejectedByThreshold
        ((mkProxy [] 0 0 exDBFail).withDB (mkProxy [] 0 0 exDBFail).db.zeroGet) "x" :=
  C6_store_failures_do_not_change_verdict.1 (mkProxy [] 0 0 exDBFail) "x" rfl

/-- Claim C7, counterexample.  The spawned prepare worker need not have
taken its per-index lock before the apply loop asks for it: from the
initial state the apply loop can acquire the lock, run Apply, and finish
while the worker has not even started.  So the apply loop's lock
acquisition does not block until the prepare worker completed, and
Prepare does not happen before Apply. -/

theorem C7_counterexample :
    SlotReachable slotCex ∧ slotCex.m = MainPC.applied ∧
      slotCex.w = WorkerPC.beforeLock := by
  refine ⟨?_, rfl, rfl⟩
  have s1 : SlotStep slotInit
      ⟨WorkerPC.beforeLock, MainPC.locked, some Owner.main⟩ :=
    SlotStep.mAcquire _
  have s2 : SlotStep ⟨WorkerPC.beforeLock, MainPC.locked, some Owner.main⟩
      ⟨WorkerPC.beforeLock, MainPC.applying, some Owner.main⟩ :=
    SlotStep.mBegin _ _
  have s3 : SlotStep ⟨WorkerPC.beforeLock, MainPC.applying, some Owner.main⟩
      slotCex :=
    SlotStep.mEnd _ _
  exact Relation.ReflTransGen.head s1
    (Relation.ReflTransGen.head s2 (Relation.ReflTransGen.single s3))

/-- Claim C7 (amended): Apply for filter i and Prepare for filter i are
mutually exclusive — in no reachable interleaving are both running at
once, because whichever thread holds the per-index lock excludes the
other.  (The ordering the claim states does not hold: see the
counterexample, where Apply completes before Prepare started.) -/
theorem C7_prepare_apply_mutual_exclusion (s : SlotState)
    (h : SlotReachable s) :
    ¬(s.w = WorkerPC.preparing ∧ s.m = MainPC.applying) := by
  rintro ⟨hw, hm⟩
  have hinv := slotInv_of_reachable s h
  have h1 := hinv.1 (Or.inr (Or.inl hw))
  have h2 := hinv.2 (Or.inr (Or.inl hm))
  rw [h1] at h2
  exact absurd h2 (by simp)

/-- Witness for the amended C7, at the initial state. -/
theorem C7_witness :
    ¬(slotInit.w = WorkerPC.preparing ∧ slotInit.m = MainPC.applying) :=
  C7_prepare_apply_mutual_exclusion slotInit Relation.ReflTransGen.refl

/-- Claim C8: for an entity with a well-formed remote endpoint and a
chain whose names all resolve (the invariant NewBaseProxy establishes),
RunFilters returns a boolean whatever the filters and the store do:
every filter error and store error is absorbed. -/
theorem C8_absorbs_internal_errors
    (parse : String → Option AddrPort) (p : Proxy) (e : HTTPRequest) (a : Addr)
    (hip : e.GetIP parse = Except.ok a)
    (hres : ∀ f ∈ p.config.filters, (p.filters.get f).isSome) :
    ∃ b evs, RunFilters parse p e = Except.ok (b, evs) := by
  cases hrej : isRejectedByThreshold p a.toString with
  | true =>
    exact ⟨false, [Event.getVerdict a.toString], by simp [RunFilters, hip, hrej]⟩
  | false =>
    obtain ⟨r, evs, hl⟩ :=
      applyLoop_isOk p.filters p.db a.toString p.config.filters 0 hres
    exact ⟨r, Event.getVerdict a.toString :: (prepareFilters p.config.filters ++ evs),
      by simp [RunFilters, hip, hrej, hl]⟩

/-- Witness for C8: an erring filter together with a store whose lookup
and increments all fail still yields a boolean verdict. -/
theorem C8_witness :
    ∃ b evs, RunFilters exParse (mkProxy ["ptr", "ua"] 0 0 exDBFail) exReq
      = Except.ok (b, evs) :=
  C8_absorbs_internal_errors exParse (mkProxy ["ptr", "ua"] 0 0 exDBFail) exReq
    exAddr rfl (by decide)

/-- Claim C9: on an unread body, the raw-dump path returns the full wire
form (headers then body), leaves the body fresh and unread with the same
content, and the subsequent direct body read returns the same byte
sequence as the body part of the dump. -/
theorem C9_raw_then_body_reads_agree (r : HTTPRequest) (h : r.body.pos = 0) :
    (r.GetRaw).1 = r.headerBytes ++ r.body.data ∧
    (r.GetRaw).2.body = { data := r.body.data, pos := 0 } ∧
    ((r.GetRaw).2.GetBody).1 = r.body.data ∧
    ((r.GetRaw).1).drop r.headerBytes.length = ((r.GetRaw).2.GetBody).1 := by
  refine ⟨?_, rfl, ?_, ?_⟩
  · simp [HTTPRequest.GetRaw, DumpRequest, h]
  · simp [HTTPRequest.GetRaw, HTTPRequest.GetBody, BodyStream.readAll, WrapHTTPBody]
  · simp [HTTPRequest.GetRaw, HTTPRequest.GetBody, BodyStream.readAll, WrapHTTPBody,
      DumpRequest, h]

/-- Witness for C9 on a concrete request. -/
theorem C9_witness :
    (exReq.GetRaw).1 = exReq.headerBytes ++ exReq.body.data ∧
    (exReq.GetRaw).2.body = { data := exReq.body.data, pos := 0 } ∧
    ((exReq.GetRaw).2.GetBody).1 = exReq.body.data ∧
    ((exReq.GetRaw).1).drop exReq.headerBytes.length = ((exReq.GetRaw).2.GetBody).1 :=
  C9_raw_then_body_reads_agree exReq rfl

/-- Claim C10: a proxy NewBaseProxy returns successfully carries the
registry it was given, and every name in its configured chain resolves
in it — so the found flag RunFilters and prepareFilters discard is
always true and the resolved filter is never absent. -/
theorem C10_constructed_proxy_resolves_filters
    (loadPair : String → String → Except String Unit) (cfg : ProxyConfig)
    (fs : FilterSet) (db : DBBehavior) (actions : List String) (p : Proxy)
    (h : NewBaseProxy loadPair cfg fs db actions = Except.ok p) :
    p.filters = fs ∧ ∀ f ∈ p.config.filters, (fs.get f).isSome := by
  unfold NewBaseProxy at h
  split at h
  · exact absurd h (by simp)
  · split at h
    · exact absurd h (by simp)
    · rename_i hfind
      have hall : ∀ f ∈ cfg.filters, (fs.get f).isSome := by
        intro f hf
        have hnone := List.find?_eq_none.mp hfind f hf
        cases ho : fs.get f with
        | none => rw [ho] at hnone; simp at hnone
        | some b => rfl
      have hfl : (applyDefaultTimeout cfg).filters = cfg.filters := by
        unfold applyDefaultTimeout
        split <;> rfl
      split at h
      · obtain rfl : _ = p := Except.ok.inj h
        exact ⟨rfl, by rw [hfl]; exact hall⟩
      · split at h
        · exact absurd h (by simp)
        · obtain rfl : _ = p := Except.ok.inj h
          exact ⟨rfl, by rw [hfl]; exact hall⟩

/-- Witness for C10 on a concrete configuration. -/
theorem C10_witness :
    (⟨applyDefaultTimeout (exConfig ["geo", "ua"] 0 0), none, false,
        exDB ⟨0, 0⟩, exFS⟩ : Proxy).filters = exFS ∧
    ∀ f ∈ (⟨applyDefaultTimeout (exConfig ["geo", "ua"] 0 0), none, false,
        exDB ⟨0, 0⟩, exFS⟩ : Proxy).config.filters, (exFS.get f).isSome :=
  C10_constructed_proxy_resolves_filters (fun _ _ => Except.ok ())
    (exConfig ["geo", "ua"] 0 0) exFS (exDB ⟨0, 0⟩) ["drop"] _ rfl

end BounceBack
